import Mathlib

/-!
Verification of the `spx::SpxQueue` concurrent deque
(`src/src/utils/spx_queue.h`), a mutex-guarded wrapper around a
`std::vector<T>` named `data_`.  Under the guard every public operation is
a single atomic step on the element sequence, so the sequential semantics
of each critical section is embedded as a pure function on the sequence:

  * `push` emplaces the value at the back (`data_.emplace_back`);
  * `pop` returns `nullopt` on an empty vector, otherwise moves out the
    front element and erases it (`data_.front()` / `data_.erase(begin)`);
  * `steal` returns `nullopt` on an empty vector, otherwise moves out the
    back element and removes it (`data_.back()` / `data_.pop_back()`);
  * `empty` / `size` read `data_.empty()` / `data_.size()`;
  * `clear` calls `data_.clear()`;
  * the move constructor and move assignment transfer `data_` from the
    source (leaving the moved-from vector empty); move assignment first
    checks `this != &other` and does nothing on a self move.
-/

namespace Spx

/-- State of one `SpxQueue<T>` instance: the contents of its `data_`
vector, front first.  The mutex only serializes access and has no effect
on the sequential semantics of a critical section, so it has no
counterpart in the state. -/
structure SpxQueue (T : Type) where
  data_ : List T
deriving DecidableEq, Repr

namespace SpxQueue

/-- `SpxQueue() = default`: `data_{}` is empty. -/
def new {T : Type} : SpxQueue T := ⟨[]⟩

/-- `push`: `data_.emplace_back(std::move(value))`. -/
def push {T : Type} (q : SpxQueue T) (value : T) : SpxQueue T :=
  ⟨q.data_ ++ [value]⟩

/-- `pop`: if `data_.empty()` return `nullopt`; otherwise move out
`data_.front()`, `data_.erase(data_.begin())`, and return the element.
Result is the returned `optional<T>` paired with the new state. -/
def pop {T : Type} (q : SpxQueue T) : Option T × SpxQueue T :=
  match q.data_ with
  | [] => (none, q)
  | front :: rest => (some front, ⟨rest⟩)

/-- `steal`: if `data_.empty()` return `nullopt`; otherwise move out
`data_.back()`, `data_.pop_back()`, and return the element. -/
def steal {T : Type} (q : SpxQueue T) : Option T × SpxQueue T :=
  match q.data_.getLast? with
  | none => (none, q)
  | some back => (some back, ⟨q.data_.dropLast⟩)

/-- `empty`: `data_.empty()`. -/
def empty {T : Type} (q : SpxQueue T) : Bool := q.data_.isEmpty

/-- `size`: `data_.size()`. -/
def size {T : Type} (q : SpxQueue T) : Nat := q.data_.length

/-- `clear`: `data_.clear()`. -/
def clear {T : Type} (q : SpxQueue T) : SpxQueue T := ⟨[]⟩

/-- Move constructor `SpxQueue(SpxQueue&& other)`: after locking both
guards, `data_ = std::move(other.data_)`.  Returns the newly constructed
instance paired with the moved-from source (its vector left empty). -/
def moveConstruct {T : Type} (other : SpxQueue T) : SpxQueue T × SpxQueue T :=
  (⟨other.data_⟩, ⟨[]⟩)

/-- Move assignment `operator=(SpxQueue&& other)`: when `this != &other`
(argument `same = false`), lock both guards and `data_ =
std::move(other.data_)`; when `this == &other` (`same = true`) the body is
skipped entirely and `*this` is returned unchanged.  Returns the
destination's new state paired with the source's new state; on a self
move both components are the one aliased instance. -/
def moveAssign {T : Type} (same : Bool) (dst src : SpxQueue T) :
    SpxQueue T × SpxQueue T :=
  if same then (dst, src) else (⟨src.data_⟩, ⟨[]⟩)

/-- Pushes a list of values in order, front of the list first. -/
def pushAll {T : Type} (q : SpxQueue T) (values : List T) : SpxQueue T :=
  values.foldl push q

/-- Repeated `pop`: returns the list of the `n` results in call order,
with the final state. -/
def popSeq {T : Type} : Nat → SpxQueue T → List (Option T) × SpxQueue T
  | 0, q => ([], q)
  | n + 1, q =>
    let r := q.pop
    let rest := popSeq n r.2
    (r.1 :: rest.1, rest.2)

/-- Repeated `steal`: returns the list of the `n` results in call order,
with the final state. -/
def stealSeq {T : Type} : Nat → SpxQueue T → List (Option T) × SpxQueue T
  | 0, q => ([], q)
  | n + 1, q =>
    let r := q.steal
    let rest := stealSeq n r.2
    (r.1 :: rest.1, rest.2)

/-- One draining call: either `pop` or `steal`. -/
inductive DrainOp where
  | pop
  | steal
deriving DecidableEq, Repr

/-- Runs an interleaving of `pop` and `steal` calls.  Returns the values
the pops delivered (in call order), the values the steals delivered (in
call order), and the final state; absent results are dropped. -/
def runOps {T : Type} : List DrainOp → SpxQueue T → List T × List T × SpxQueue T
  | [], q => ([], [], q)
  | DrainOp.pop :: ops, q =>
    let r := q.pop
    let rest := runOps ops r.2
    (r.1.toList ++ rest.1, rest.2.1, rest.2.2)
  | DrainOp.steal :: ops, q =>
    let r := q.steal
    let rest := runOps ops r.2
    (rest.1, r.1.toList ++ rest.2.1, rest.2.2)

theorem pushAll_data {T : Type} (values : List T) (q : SpxQueue T) :
    (q.pushAll values).data_ = q.data_ ++ values := by
  induction values generalizing q with
  | nil => simp [pushAll]
  | cons v vs ih =>
    simp [pushAll, List.foldl_cons, push] at ih ⊢
    rw [ih ⟨q.data_ ++ [v]⟩]
    simp

theorem popSeq_drain {T : Type} (l : List T) :
    popSeq l.length (⟨l⟩ : SpxQueue T) = (l.map some, ⟨[]⟩) := by
  induction l with
  | nil => rfl
  | cons v vs ih => simp [popSeq, pop, ih]

theorem stealSeq_drain {T : Type} (l : List T) :
    stealSeq l.length (⟨l⟩ : SpxQueue T) = (l.reverse.map some, ⟨[]⟩) := by
  induction l using List.reverseRecOn with
  | nil => rfl
  | append_singleton vs v ih =>
    simp [stealSeq, steal, List.getLast?_concat, List.dropLast_concat, ih]

theorem runOps_partition {T : Type} (ops : List DrainOp) (q : SpxQueue T) :
    (runOps ops q).1 ++ (runOps ops q).2.2.data_ ++
      ((runOps ops q).2.1).reverse = q.data_ := by
  induction ops generalizing q with
  | nil => simp [runOps]
  | cons op ops ih =>
    cases op with
    | pop =>
      match h : q.data_ with
      | [] =>
        have hq : q = ⟨[]⟩ := by cases q; simp_all
        subst hq
        simpa [runOps, pop] using ih ⟨[]⟩
      | front :: rest =>
        have hq : q = ⟨front :: rest⟩ := by cases q; simp_all
        subst hq
        have := ih (⟨rest⟩ : SpxQueue T)
        simp [runOps, pop] at this ⊢
        exact this
    | steal =>
      match h : q.data_.getLast? with
      | none =>
        have hq : q = ⟨[]⟩ := by
          cases q; simp_all [List.getLast?_eq_none_iff]
        subst hq
        simpa [runOps, steal] using ih ⟨[]⟩
      | some back =>
        have hlast : q.data_.dropLast ++ [back] = q.data_ :=
          List.dropLast_append_getLast? back h
        have := ih (⟨q.data_.dropLast⟩ : SpxQueue T)
        simp [runOps, steal, h] at this ⊢
        rw [← List.append_assoc] at this
        rw [← List.append_assoc, ← List.append_assoc, this]
        exact hlast

theorem eq_of_data {T : Type} {q r : SpxQueue T} (h : q.data_ = r.data_) :
    q = r := by
  cases q; cases r; simpa using h

theorem append_take_drop {T : Type} {p s l : List T} (h : p ++ s = l) :
    p = l.take p.length ∧ s = l.drop p.length := by
  subst h
  constructor <;> simp

theorem pushAll_new {T : Type} (l : List T) :
    (new : SpxQueue T).pushAll l = ⟨l⟩ :=
  eq_of_data (by simp [pushAll_data, new])

/-- Claim C1: pushing `v1..vn` into a freshly constructed queue with no
intervening pops or steals and then calling `pop` `n` times returns
`some v1, some v2, ..., some vn` in exactly that order. -/
theorem C1_fifo {T : Type} (l : List T) :
    (popSeq l.length ((new : SpxQueue T).pushAll l)).1 = l.map some := by
  rw [pushAll_new, popSeq_drain]

/-- Claim C2: pushing `v1..vn` into a freshly constructed queue with no
intervening pops or steals and then calling `steal` `n` times returns
`some vn, some vn-1, ..., some v1` in exactly that order. -/
theorem C2_lifo_steal {T : Type} (l : List T) :
    (stealSeq l.length ((new : SpxQueue T).pushAll l)).1 = l.reverse.map some := by
  rw [pushAll_new, stealSeq_drain]

/-- Claim C3: after pushing `v1..vn` into a fresh queue, any interleaving
of `pop` and `steal` calls that drains the queue delivers each element
exactly once: the pop results followed by the reversed steal results
reassemble the pushed list, the pop results are the prefix of the pushed
list taken from the front, and the reversed steal results are the
matching suffix taken from the back. -/
theorem C3_mixed_end {T : Type} (ops : List DrainOp) (l : List T)
    (hdrained : (runOps ops ((new : SpxQueue T).pushAll l)).2.2.data_ = []) :
    (runOps ops ((new : SpxQueue T).pushAll l)).1 ++
        ((runOps ops ((new : SpxQueue T).pushAll l)).2.1).reverse = l ∧
      (runOps ops ((new : SpxQueue T).pushAll l)).1 =
        l.take (runOps ops ((new : SpxQueue T).pushAll l)).1.length ∧
      ((runOps ops ((new : SpxQueue T).pushAll l)).2.1).reverse =
        l.drop (runOps ops ((new : SpxQueue T).pushAll l)).1.length := by
  rw [pushAll_new] at hdrained ⊢
  have hpart := runOps_partition ops (⟨l⟩ : SpxQueue T)
  rw [hdrained] at hpart
  simp only [List.append_nil, List.nil_append] at hpart
  obtain ⟨h1, h2⟩ := append_take_drop hpart
  exact ⟨hpart, h1, h2⟩

/-- Witness for C3 at `l = [1, 2, 3]` and the interleaving
pop, steal, pop: the pops deliver 1 then 2, the steal delivers 3. -/
theorem C3_mixed_end_witness :
    ((runOps [DrainOp.pop, DrainOp.steal, DrainOp.pop]
        ((new : SpxQueue Nat).pushAll [1, 2, 3])).2.2.data_ = []) ∧
      ((runOps [DrainOp.pop, DrainOp.steal, DrainOp.pop]
          ((new : SpxQueue Nat).pushAll [1, 2, 3])).1 ++
          ((runOps [DrainOp.pop, DrainOp.steal, DrainOp.pop]
            ((new : SpxQueue Nat).pushAll [1, 2, 3])).2.1).reverse = [1, 2, 3] ∧
        (runOps [DrainOp.pop, DrainOp.steal, DrainOp.pop]
            ((new : SpxQueue Nat).pushAll [1, 2, 3])).1 =
          [1, 2, 3].take (runOps [DrainOp.pop, DrainOp.steal, DrainOp.pop]
            ((new : SpxQueue Nat).pushAll [1, 2, 3])).1.length ∧
        ((runOps [DrainOp.pop, DrainOp.steal, DrainOp.pop]
            ((new : SpxQueue Nat).pushAll [1, 2, 3])).2.1).reverse =
          [1, 2, 3].drop (runOps [DrainOp.pop, DrainOp.steal, DrainOp.pop]
            ((new : SpxQueue Nat).pushAll [1, 2, 3])).1.length) :=
  ⟨by decide, C3_mixed_end [DrainOp.pop, DrainOp.steal, DrainOp.pop] [1, 2, 3]
    (by decide)⟩

/-- Claim C4: on a queue whose sequence is empty, `pop` and `steal`
return `none` and leave the state unchanged, `empty` reports `true`, and
`size` reports zero; both are total functions, so the condition is not an
error. -/
theorem C4_empty_on_empty {T : Type} (q : SpxQueue T) (h : q.data_ = []) :
    q.pop = (none, q) ∧ q.steal = (none, q) ∧ q.empty = true ∧ q.size = 0 := by
  obtain ⟨d⟩ := q
  simp only at h
  subst h
  exact ⟨rfl, rfl, rfl, rfl⟩

/-- Witness for C4 at a freshly constructed `SpxQueue Nat`. -/
theorem C4_empty_on_empty_witness :
    ((new : SpxQueue Nat).data_ = []) ∧
      ((new : SpxQueue Nat).pop = (none, new) ∧
        (new : SpxQueue Nat).steal = (none, new) ∧
        (new : SpxQueue Nat).empty = true ∧ (new : SpxQueue Nat).size = 0) :=
  ⟨rfl, C4_empty_on_empty new rfl⟩

/-- Claim C5: on every queue state, `push v` appends `v` at the back and
increases `size` by exactly one; the embedding of `push` is a total
function into a state (no returned value, no failure). -/
theorem C5_push {T : Type} (q : SpxQueue T) (v : T) :
    (q.push v).data_ = q.data_ ++ [v] ∧ (q.push v).size = q.size + 1 := by
  exact ⟨rfl, by simp [push, size]⟩

/-- Claim C6: `clear` followed by `size` yields zero on every state,
`clear` is idempotent, and on an already-empty queue `clear` is a no-op
returning a state equal to the one before the call. -/
theorem C6_clear {T : Type} (q : SpxQueue T) :
    q.clear.size = 0 ∧ q.clear.clear = q.clear ∧ (q.data_ = [] → q.clear = q) := by
  refine ⟨rfl, rfl, fun h => eq_of_data ?_⟩
  simp [clear, h]

/-- Witness for C6 at a two-element queue and at the fresh empty queue. -/
theorem C6_clear_witness :
    ((⟨[5, 7]⟩ : SpxQueue Nat).clear.size = 0) ∧
      ((new : SpxQueue Nat).clear = new) :=
  ⟨(C6_clear (⟨[5, 7]⟩ : SpxQueue Nat)).1, (C6_clear (new : SpxQueue Nat)).2.2 rfl⟩

/-- Claim C7: move construction and move assignment (between distinct
instances) give the destination exactly the source's sequence in order
and leave the source empty, so no element is duplicated or lost: the
destination's and source's post-move sequences concatenate to the
source's pre-move sequence. -/
theorem C7_move_transfers {T : Type} (dst a : SpxQueue T) :
    (moveConstruct a).1.data_ = a.data_ ∧ (moveConstruct a).2.data_ = [] ∧
      (moveConstruct a).1.data_ ++ (moveConstruct a).2.data_ = a.data_ ∧
      (moveAssign false dst a).1.data_ = a.data_ ∧
      (moveAssign false dst a).2.data_ = [] ∧
      (moveAssign false dst a).1.data_ ++ (moveAssign false dst a).2.data_ =
        a.data_ := by
  simp [moveConstruct, moveAssign]

/-- Claim C9: self-move-assignment (`this == &other`, the `same = true`
case skipping the body) leaves the queue unchanged and returns the same
instance. -/
theorem C9_self_move {T : Type} (q : SpxQueue T) :
    moveAssign true q q = (q, q) := by
  simp [moveAssign]

/-- Claim C10: on every queue state, `empty` returns `true` exactly when
`size` returns zero. -/
theorem C10_empty_iff_size_zero {T : Type} (q : SpxQueue T) :
    q.empty = true ↔ q.size = 0 := by
  obtain ⟨d⟩ := q
  simp [empty, size, List.isEmpty_iff, List.length_eq_zero]

end SpxQueue

end Spx
